import Mathlib

/-!
Verification of the context-window usage accounting of `Any-code`
(`src/hooks/useContextWindowUsage.ts` and the usage-normalization helper in
`src/lib/utils.ts`).

The TypeScript code is shallowly embedded: messages are records with the
optional fields the hook actually reads, token counts are integers, and the
floating-point percentage arithmetic of the hook is modelled in exact
rationals (ℚ).  The two external collaborators that the hook imports from
modules absent from this tree — the static context-window lookup
`getContextWindowSize` (src/lib/tokenCounter.ts) and the threshold classifier
`getUsageLevel` (src/types/contextWindow.ts) — are treated, exactly as the
specification describes them, as arbitrary pure functions and are passed as
parameters.
-/

namespace AnyCode

/-- A raw usage payload: any record that may carry some subset of the
engine-specific token-count fields.  A missing or non-numeric field is
represented by `none`. -/
structure RawUsage where
  input_tokens : Option Int := none
  output_tokens : Option Int := none
  cache_creation_tokens : Option Int := none
  cache_read_tokens : Option Int := none
  cache_creation_input_tokens : Option Int := none
  cache_read_input_tokens : Option Int := none
  cached_input_tokens : Option Int := none
  deriving DecidableEq

/-- The canonical four-field usage record produced by normalization
(`normalizeUsageForIndicator` in useContextWindowUsage.ts). -/
structure NormalizedUsage where
  inputTokens : Nat
  outputTokens : Nat
  cacheCreationTokens : Nat
  cacheReadTokens : Nat
  deriving DecidableEq

/-- Codex side-channel metadata carried by a message: an optional cumulative
usage snapshot, an optional event-type tag, and an optional runtime-reported
context-window size. -/
structure CodexMetadata where
  usage : Option RawUsage := none
  codexItemType : Option String := none
  modelContextWindow : Option Int := none
  deriving DecidableEq

/-- A session message, restricted to the fields the hook reads:
`usage` directly on the message, `message.usage` nested one level down
(embedded here as `message_usage`), and the Codex metadata object. -/
structure Msg where
  usage : Option RawUsage := none
  message_usage : Option RawUsage := none
  codexMetadata : Option CodexMetadata := none
  deriving DecidableEq

/-- The four-level classification of `src/types/contextWindow.ts`. -/
inductive ContextUsageLevel where
  | low
  | medium
  | high
  | critical
  deriving DecidableEq

/-- Coerce one optional raw field to a non-negative integer: missing (or
non-numeric, which the embedding folds into `none`) and negative values
become 0. -/
def tokField (x : Option Int) : Nat := (x.getD 0).toNat

/-- Modelled from the spec: `normalizeRawUsage` lives in
`src/lib/tokenExtractor.ts`, which is not part of this source tree; §4.1 of
the spec requires every field coerced to a non-negative integer with missing,
non-numeric, or negative values treated as 0, and aliased field names
(`cache_creation_tokens` / `cache_creation_input_tokens`,
`cache_read_tokens` / `cache_read_input_tokens`, and Codex's
`cached_input_tokens` for the cache-read quantity, per §6) resolved to one
canonical field, never summed. -/
def normalizeRawUsage (u : RawUsage) : NormalizedUsage where
  inputTokens := tokField u.input_tokens
  outputTokens := tokField u.output_tokens
  cacheCreationTokens :=
    tokField (u.cache_creation_tokens.orElse fun _ => u.cache_creation_input_tokens)
  cacheReadTokens :=
    tokField ((u.cache_read_tokens.orElse fun _ =>
      u.cache_read_input_tokens).orElse fun _ => u.cached_input_tokens)

/-- Embeds `normalizeUsageData` (src/lib/utils.ts): delegates to `normalizeRawUsage`
and repackages the same four quantities. -/
def normalizeUsageData (u : RawUsage) : NormalizedUsage := normalizeRawUsage u

/-- Embeds `normalizeUsageForIndicator` (useContextWindowUsage.ts): applies
`normalizeUsageData` and defaults each field to 0 (already guaranteed on
`Nat`). -/
def normalizeUsageForIndicator (u : RawUsage) : NormalizedUsage :=
  normalizeUsageData u

/-- The non-triviality test the hook repeats on normalized usage: at least
one of the four fields is positive. -/
def hasAnyTokens (n : NormalizedUsage) : Bool :=
  decide (0 < n.inputTokens) || decide (0 < n.outputTokens) ||
  decide (0 < n.cacheCreationTokens) || decide (0 < n.cacheReadTokens)

/-- Embeds `getUsageCandidate` (useContextWindowUsage.ts:49): the direct `usage`
field, else the nested `message.usage`; for the Codex engine a final
fallback to `codexMetadata.usage`. -/
def getUsageCandidate (message : Msg) (engine : Option String) : Option RawUsage :=
  match message.usage.orElse fun _ => message.message_usage with
  | some u => some u
  | none =>
    if engine = some "codex" then
      message.codexMetadata.bind CodexMetadata.usage
    else
      none

/-- The backward loop of `extractCurrentUsage` (useContextWindowUsage.ts:83),
expressed as recursion over the reversed message list: skip messages without
a candidate or with an all-zero normalization, return the first normalized
candidate with a positive field. -/
def extractCurrentUsageAux (engine : Option String) : List Msg → Option NormalizedUsage
  | [] => none
  | m :: rest =>
    match getUsageCandidate m engine with
    | none => extractCurrentUsageAux engine rest
    | some u =>
      let n := normalizeUsageForIndicator u
      if hasAnyTokens n then some n else extractCurrentUsageAux engine rest

/-- Embeds `extractCurrentUsage` (useContextWindowUsage.ts:76): scan the message
list from the end backward. -/
def extractCurrentUsage (messages : List Msg) (engine : Option String) :
    Option NormalizedUsage :=
  extractCurrentUsageAux engine messages.reverse

/-- The per-message test of the first Codex phase
(useContextWindowUsage.ts:123): the normalized `codexMetadata.usage`
snapshot when it exists and has a positive field. -/
def cumulativeCandidate (m : Msg) : Option NormalizedUsage :=
  match m.codexMetadata.bind CodexMetadata.usage with
  | none => none
  | some u =>
    let n := normalizeUsageForIndicator u
    if hasAnyTokens n then some n else none

/-- Phase 1 of `extractCodexCumulativeUsage` (useContextWindowUsage.ts:119),
as recursion over the reversed list: the first non-trivial cumulative
snapshot wins. -/
def codexPhase1 : List Msg → Option NormalizedUsage
  | [] => none
  | m :: rest =>
    match cumulativeCandidate m with
    | some n => some n
    | none => codexPhase1 rest

/-- The skip test of phase 2 (useContextWindowUsage.ts:148): the message is
tagged as a cumulative `thread_token_usage_updated` event. -/
def isThreadTokenUsageUpdated (m : Msg) : Bool :=
  decide ((m.codexMetadata.bind CodexMetadata.codexItemType) =
    some "thread_token_usage_updated")

/-- Field-wise addition of normalized usage records. -/
def addUsage (a b : NormalizedUsage) : NormalizedUsage where
  inputTokens := a.inputTokens + b.inputTokens
  outputTokens := a.outputTokens + b.outputTokens
  cacheCreationTokens := a.cacheCreationTokens + b.cacheCreationTokens
  cacheReadTokens := a.cacheReadTokens + b.cacheReadTokens

/-- One step of the phase-2 accumulation loop
(useContextWindowUsage.ts:146-169): the accumulator carries the four running
sums together with the `foundAny` flag. -/
def codexFoldStep (acc : NormalizedUsage × Bool) (m : Msg) : NormalizedUsage × Bool :=
  if isThreadTokenUsageUpdated m then acc
  else
    match m.usage with
    | none => acc
    | some raw =>
      let n := normalizeUsageForIndicator raw
      if hasAnyTokens n then (addUsage acc.1 n, true) else acc

/-- Embeds `extractCodexCumulativeUsage` (useContextWindowUsage.ts:112): return the
most recent non-trivial cumulative snapshot if one exists, otherwise the
accumulated per-message deltas when at least one message contributed. -/
def extractCodexCumulativeUsage (messages : List Msg) : Option NormalizedUsage :=
  match codexPhase1 messages.reverse with
  | some n => some n
  | none =>
    let acc := messages.foldl codexFoldStep (⟨0, 0, 0, 0⟩, false)
    if acc.2 then some acc.1 else none

/-- The per-message test of the Codex window-override loop
(useContextWindowUsage.ts:208-212): a positive numeric
`codexMetadata.modelContextWindow`. -/
def ctxCandidate (m : Msg) : Option Int :=
  match m.codexMetadata.bind CodexMetadata.modelContextWindow with
  | some w => if 0 < w then some w else none
  | none => none

/-- The backward override scan of useContextWindowUsage.ts:207, as recursion
over the reversed list. -/
def findCtxOverride : List Msg → Option Int
  | [] => none
  | m :: rest =>
    match ctxCandidate m with
    | some w => some w
    | none => findCtxOverride rest

/-- Context-window resolution (useContextWindowUsage.ts:203-214): the static
lookup, overridden for the Codex engine by the most recent positive
runtime-reported window. -/
def resolveContextWindow (gcws : Option String → Option String → Int)
    (messages : List Msg) (model engine : Option String) : Int :=
  if engine = some "codex" then
    match findCtxOverride messages.reverse with
    | some w => w
    | none => gcws model engine
  else gcws model engine

/-- The percentage formula of useContextWindowUsage.ts:256-258, in exact
rational arithmetic: `currentTokens / contextWindowSize * 100` capped at
100, and 0 when the window is not positive. -/
def computePercentage (currentTokens : Nat) (contextWindowSize : Int) : ℚ :=
  if 0 < contextWindowSize then
    min ((currentTokens : ℚ) / (contextWindowSize : ℚ) * 100) 100
  else 0

/-- Embeds `Number.prototype.toFixed(1)` on a non-negative value, in exact rational
arithmetic: round to the nearest tenth, half away from zero, and print one
digit after the decimal point. -/
def toFixed1 (q : ℚ) : String :=
  let n10 : Nat := (Int.floor (q * 10 + 1 / 2)).toNat
  Nat.repr (n10 / 10) ++ "." ++ Nat.repr (n10 % 10)

/-- Embeds `formatK` (useContextWindowUsage.ts:289): millions as `N.NM`, thousands
as `N.NK`, small values as the plain integer. -/
def formatK (n : Int) : String :=
  if 1000000 ≤ n then toFixed1 ((n : ℚ) / 1000000) ++ "M"
  else if 1000 ≤ n then toFixed1 ((n : ℚ) / 1000) ++ "K"
  else toString n

/-- The result record of the hook. -/
structure UseContextWindowUsageResult where
  currentTokens : Nat
  contextWindowSize : Int
  percentage : ℚ
  breakdown : NormalizedUsage
  level : ContextUsageLevel
  hasData : Bool
  formattedPercentage : String
  formattedTokens : String

/-- Embeds `defaultResult` (useContextWindowUsage.ts:217-231): the zeroed record
returned when there is no message or no usable usage data. -/
def defaultResult (contextWindowSize : Int) : UseContextWindowUsageResult where
  currentTokens := 0
  contextWindowSize := contextWindowSize
  percentage := 0
  breakdown := ⟨0, 0, 0, 0⟩
  level := ContextUsageLevel.low
  hasData := false
  formattedPercentage := "0%"
  formattedTokens := "0 / " ++ formatK contextWindowSize

/-- Embeds `useContextWindowUsage` (useContextWindowUsage.ts:196): resolve the
window, dispatch extraction on the engine, and assemble the derived metrics.
The external static lookup `gcws` and classifier `gul` are parameters. -/
def useContextWindowUsage (gcws : Option String → Option String → Int)
    (gul : ℚ → ContextUsageLevel) (messages : List Msg)
    (model engine : Option String) : UseContextWindowUsageResult :=
  let contextWindowSize := resolveContextWindow gcws messages model engine
  if messages.isEmpty then defaultResult contextWindowSize
  else
    let currentUsage :=
      if engine = some "codex" then extractCodexCumulativeUsage messages
      else extractCurrentUsage messages engine
    match currentUsage with
    | none => defaultResult contextWindowSize
    | some u =>
      let currentTokens := u.inputTokens + u.cacheCreationTokens + u.cacheReadTokens
      let percentage := computePercentage currentTokens contextWindowSize
      { currentTokens := currentTokens
        contextWindowSize := contextWindowSize
        percentage := percentage
        breakdown := u
        level := gul percentage
        hasData := true
        formattedPercentage := toFixed1 percentage ++ "%"
        formattedTokens :=
          formatK (currentTokens : Int) ++ " / " ++ formatK contextWindowSize }

/-- Spec-side view of one step of the generic backward scan: the normalized
usage of a message's candidate payload when it has a positive field. -/
def genericHit (engine : Option String) (m : Msg) : Option NormalizedUsage :=
  match getUsageCandidate m engine with
  | none => none
  | some u =>
    let n := normalizeUsageForIndicator u
    if hasAnyTokens n then some n else none

/-- Spec-side view of one message's contribution to the Codex phase-2 sum:
its normalized direct usage when the message is not tagged as a cumulative
update and the normalization has a positive field. -/
def deltaContribution (m : Msg) : Option NormalizedUsage :=
  if isThreadTokenUsageUpdated m then none
  else
    match m.usage with
    | none => none
    | some raw =>
      let n := normalizeUsageForIndicator raw
      if hasAnyTokens n then some n else none

/-- First hit of a per-message probe along a list; the common shape of the
three scanning loops of the hook. -/
def firstHit {α : Type} (f : Msg → Option α) : List Msg → Option α
  | [] => none
  | m :: rest =>
    match f m with
    | some x => some x
    | none => firstHit f rest

/-- A message carrying only a direct delta usage with the given
`input_tokens`. -/
def deltaMsg (i : Int) : Msg where
  usage := some { input_tokens := some i }

/-- A Codex message carrying only a cumulative metadata snapshot with the
given `input_tokens`. -/
def snapshotMsg (i : Int) : Msg where
  codexMetadata := some { usage := some { input_tokens := some i } }

/-- A Codex message carrying only a runtime-reported context-window size. -/
def ctxMsg (w : Int) : Msg where
  codexMetadata := some { modelContextWindow := some w }

/-- A message with a direct usage payload covering all four quantities. -/
def fullUsageMsg (i o cc cr : Int) : Msg where
  usage := some { input_tokens := some i, output_tokens := some o,
                  cache_creation_tokens := some cc, cache_read_tokens := some cr }

/-- A message whose direct usage reports only output tokens. -/
def outputOnlyMsg (o : Int) : Msg where
  usage := some { output_tokens := some o }

/-! ### Structural lemmas about the scanning loops -/

theorem firstHit_append_of_none {α : Type} (f : Msg → Option α) (l rest : List Msg)
    (h : ∀ x ∈ l, f x = none) : firstHit f (l ++ rest) = firstHit f rest := by
  induction l with
  | nil => rfl
  | cons m l ih =>
    have hm : f m = none := h m (List.mem_cons_self m l)
    simp only [List.cons_append, firstHit, hm]
    exact ih fun x hx => h x (List.mem_cons_of_mem m hx)

theorem firstHit_eq_none {α : Type} (f : Msg → Option α) (l : List Msg)
    (h : ∀ x ∈ l, f x = none) : firstHit f l = none := by
  have := firstHit_append_of_none f l [] h
  simpa using this

theorem extractCurrentUsageAux_eq (engine : Option String) (l : List Msg) :
    extractCurrentUsageAux engine l = firstHit (genericHit engine) l := by
  induction l with
  | nil => rfl
  | cons m l ih =>
    simp only [extractCurrentUsageAux, firstHit, genericHit]
    cases hc : getUsageCandidate m engine with
    | none => exact ih
    | some u =>
      cases hb : hasAnyTokens (normalizeUsageForIndicator u) <;> simp [hb, ih]

theorem codexPhase1_eq (l : List Msg) :
    codexPhase1 l = firstHit cumulativeCandidate l := by
  induction l with
  | nil => rfl
  | cons m l ih =>
    simp only [codexPhase1, firstHit]
    cases hc : cumulativeCandidate m <;> simp [ih]

theorem findCtxOverride_eq (l : List Msg) :
    findCtxOverride l = firstHit ctxCandidate l := by
  induction l with
  | nil => rfl
  | cons m l ih =>
    simp only [findCtxOverride, firstHit]
    cases hc : ctxCandidate m <;> simp [ih]

theorem codexFoldStep_eq (acc : NormalizedUsage × Bool) (m : Msg) :
    codexFoldStep acc m =
      match deltaContribution m with
      | none => acc
      | some n => (addUsage acc.1 n, true) := by
  simp only [codexFoldStep, deltaContribution]
  cases ht : isThreadTokenUsageUpdated m
  · simp only [Bool.false_eq_true, if_false]
    cases hu : m.usage with
    | none => rfl
    | some raw =>
      cases hb : hasAnyTokens (normalizeUsageForIndicator raw) <;> simp [hb]
  · simp

theorem codexFold_eq (l : List Msg) (z : NormalizedUsage) (b : Bool) :
    l.foldl codexFoldStep (z, b) =
      ((l.filterMap deltaContribution).foldl addUsage z,
        b || !(l.filterMap deltaContribution).isEmpty) := by
  induction l generalizing z b with
  | nil => simp
  | cons m l ih =>
    rw [List.foldl_cons, codexFoldStep_eq]
    cases hd : deltaContribution m with
    | none => simp only [List.filterMap_cons, hd]; exact ih z b
    | some n =>
      simp only [List.filterMap_cons, hd, List.foldl_cons, List.isEmpty_cons,
        Bool.or_true]
      rw [ih]
      simp

theorem foldl_addUsage_eq (l : List NormalizedUsage) (z : NormalizedUsage) :
    l.foldl addUsage z =
      ⟨z.inputTokens + (l.map NormalizedUsage.inputTokens).sum,
       z.outputTokens + (l.map NormalizedUsage.outputTokens).sum,
       z.cacheCreationTokens + (l.map NormalizedUsage.cacheCreationTokens).sum,
       z.cacheReadTokens + (l.map NormalizedUsage.cacheReadTokens).sum⟩ := by
  induction l generalizing z with
  | nil => cases z <;> simp
  | cons a l ih =>
    rw [List.foldl_cons, ih]
    cases z <;> cases a <;> simp [addUsage, Nat.add_assoc]

/-! ### Lemmas about the percentage formula -/

theorem computePercentage_zero (w : Int) : computePercentage 0 w = 0 := by
  unfold computePercentage
  split
  · rw [Nat.cast_zero, zero_div, zero_mul]
    exact min_eq_left (by norm_num)
  · rfl

theorem computePercentage_nonneg (c : Nat) (w : Int) : 0 ≤ computePercentage c w := by
  unfold computePercentage
  split
  · next h =>
    have hw : (0 : ℚ) < (w : ℚ) := by exact_mod_cast h
    exact le_min (by positivity) (by norm_num)
  · exact le_refl 0

theorem computePercentage_le_100 (c : Nat) (w : Int) : computePercentage c w ≤ 100 := by
  unfold computePercentage
  split
  · exact min_le_right _ _
  · norm_num

/-! ### Branch lemmas about the aggregator -/

/-- The engine-dispatched extraction, as performed at
useContextWindowUsage.ts:239-241. -/
def dispatchExtract (messages : List Msg) (engine : Option String) :
    Option NormalizedUsage :=
  if engine = some "codex" then extractCodexCumulativeUsage messages
  else extractCurrentUsage messages engine

theorem dispatchExtract_nil (engine : Option String) :
    dispatchExtract [] engine = none := by
  unfold dispatchExtract
  split
  · rfl
  · rfl

theorem useContextWindowUsage_eq_default (gcws : Option String → Option String → Int)
    (gul : ℚ → ContextUsageLevel) (messages : List Msg) (model engine : Option String)
    (h : dispatchExtract messages engine = none) :
    useContextWindowUsage gcws gul messages model engine =
      defaultResult (resolveContextWindow gcws messages model engine) := by
  unfold useContextWindowUsage
  cases messages with
  | nil => rfl
  | cons m rest =>
    rw [show dispatchExtract (m :: rest) engine =
        (if engine = some "codex" then extractCodexCumulativeUsage (m :: rest)
         else extractCurrentUsage (m :: rest) engine) from rfl] at h
    simp only [List.isEmpty_cons, Bool.false_eq_true, if_false, h]

theorem useContextWindowUsage_eq_of_extract (gcws : Option String → Option String → Int)
    (gul : ℚ → ContextUsageLevel) (messages : List Msg) (model engine : Option String)
    (u : NormalizedUsage) (h : dispatchExtract messages engine = some u) :
    useContextWindowUsage gcws gul messages model engine =
      { currentTokens := u.inputTokens + u.cacheCreationTokens + u.cacheReadTokens
        contextWindowSize := resolveContextWindow gcws messages model engine
        percentage := computePercentage
          (u.inputTokens + u.cacheCreationTokens + u.cacheReadTokens)
          (resolveContextWindow gcws messages model engine)
        breakdown := u
        level := gul (computePercentage
          (u.inputTokens + u.cacheCreationTokens + u.cacheReadTokens)
          (resolveContextWindow gcws messages model engine))
        hasData := true
        formattedPercentage := toFixed1 (computePercentage
          (u.inputTokens + u.cacheCreationTokens + u.cacheReadTokens)
          (resolveContextWindow gcws messages model engine)) ++ "%"
        formattedTokens :=
          formatK ((u.inputTokens + u.cacheCreationTokens + u.cacheReadTokens : Nat) : Int)
            ++ " / " ++ formatK (resolveContextWindow gcws messages model engine) } := by
  cases messages with
  | nil => rw [dispatchExtract_nil] at h; exact Option.noConfusion h
  | cons m rest =>
    unfold useContextWindowUsage
    rw [show (if engine = some "codex" then extractCodexCumulativeUsage (m :: rest)
         else extractCurrentUsage (m :: rest) engine) =
        dispatchExtract (m :: rest) engine from rfl]
    simp only [List.isEmpty_cons, Bool.false_eq_true, if_false, h]

theorem result_contextWindowSize_eq (gcws : Option String → Option String → Int)
    (gul : ℚ → ContextUsageLevel) (messages : List Msg) (model engine : Option String) :
    (useContextWindowUsage gcws gul messages model engine).contextWindowSize =
      resolveContextWindow gcws messages model engine := by
  cases h : dispatchExtract messages engine with
  | none => rw [useContextWindowUsage_eq_default gcws gul messages model engine h]; rfl
  | some u => rw [useContextWindowUsage_eq_of_extract gcws gul messages model engine u h]

theorem result_percentage_eq (gcws : Option String → Option String → Int)
    (gul : ℚ → ContextUsageLevel) (messages : List Msg) (model engine : Option String) :
    (useContextWindowUsage gcws gul messages model engine).percentage =
      computePercentage (useContextWindowUsage gcws gul messages model engine).currentTokens
        (useContextWindowUsage gcws gul messages model engine).contextWindowSize := by
  cases h : dispatchExtract messages engine with
  | none =>
    rw [useContextWindowUsage_eq_default gcws gul messages model engine h]
    exact (computePercentage_zero _).symm
  | some u => rw [useContextWindowUsage_eq_of_extract gcws gul messages model engine u h]

theorem resolveContextWindow_nil (gcws : Option String → Option String → Int)
    (model engine : Option String) :
    resolveContextWindow gcws [] model engine = gcws model engine := by
  unfold resolveContextWindow
  split
  · rfl
  · rfl

/-! ### Evaluation of the decimal formatter -/

theorem toFixed1_eq_of_floor (q : ℚ) (k : Nat)
    (h : Int.floor (q * 10 + 1 / 2) = (k : Int)) :
    toFixed1 q = Nat.repr (k / 10) ++ "." ++ Nat.repr (k % 10) := by
  unfold toFixed1
  rw [h]
  simp

theorem toFixed1_zero : toFixed1 0 = "0.0" := by
  rw [toFixed1_eq_of_floor 0 0 (by rw [Int.floor_eq_iff] <;> norm_num)]
  decide

/-! ### The claims -/

/-- C1: for the Codex engine, when some message carries a cumulative
metadata snapshot that normalizes to at least one positive field, the
extractor returns the most recent such snapshot directly — the per-message
deltas after it (or anywhere else in the list) are never summed into the
result. -/
theorem codex_snapshot_authoritative
    (pre post : List Msg) (m : Msg) (n : NormalizedUsage)
    (hm : cumulativeCandidate m = some n)
    (hpost : ∀ x ∈ post, cumulativeCandidate x = none) :
    extractCodexCumulativeUsage (pre ++ m :: post) = some n := by
  have h1 : codexPhase1 ((pre ++ m :: post).reverse) = some n := by
    rw [codexPhase1_eq, List.reverse_append, List.reverse_cons, List.append_assoc,
      List.singleton_append,
      firstHit_append_of_none _ _ _ fun x hx => hpost x (List.mem_reverse.mp hx)]
    simp [firstHit, hm]
  unfold extractCodexCumulativeUsage
  rw [h1]

/-- Witness for C1: a cumulative snapshot of 100 input tokens followed by
delta messages of 10 and 20 yields the snapshot, not the sum 130. -/
theorem codex_snapshot_authoritative_witness :
    extractCodexCumulativeUsage [snapshotMsg 100, deltaMsg 10, deltaMsg 20] =
      some ⟨100, 0, 0, 0⟩ :=
  codex_snapshot_authoritative [] [deltaMsg 10, deltaMsg 20] (snapshotMsg 100)
    ⟨100, 0, 0, 0⟩ (by decide) (by decide)

/-- C2: for the Codex engine, when no message carries a non-trivial
cumulative metadata snapshot, the extractor returns the field-wise sum of
the normalized direct usage of every contributing message (those not tagged
`thread_token_usage_updated` whose direct usage normalizes to a positive
field), and signals no data when no message contributes. -/
theorem codex_delta_sum_fallback (messages : List Msg)
    (h : ∀ x ∈ messages, cumulativeCandidate x = none) :
    extractCodexCumulativeUsage messages =
      if (messages.filterMap deltaContribution).isEmpty then none
      else
        some ⟨((messages.filterMap deltaContribution).map NormalizedUsage.inputTokens).sum,
              ((messages.filterMap deltaContribution).map NormalizedUsage.outputTokens).sum,
              ((messages.filterMap deltaContribution).map NormalizedUsage.cacheCreationTokens).sum,
              ((messages.filterMap deltaContribution).map NormalizedUsage.cacheReadTokens).sum⟩ := by
  unfold extractCodexCumulativeUsage
  rw [codexPhase1_eq, firstHit_eq_none _ _ fun x hx => h x (List.mem_reverse.mp hx)]
  dsimp only
  rw [codexFold_eq, foldl_addUsage_eq]
  simp only [Bool.false_or, Nat.zero_add]
  cases he : (messages.filterMap deltaContribution).isEmpty <;> simp [he]

/-- Witness for C2: three untagged delta messages with input tokens 10, 20
and 30 sum to 60 input tokens. -/
theorem codex_delta_sum_fallback_witness :
    extractCodexCumulativeUsage [deltaMsg 10, deltaMsg 20, deltaMsg 30] =
      some ⟨60, 0, 0, 0⟩ :=
  (codex_delta_sum_fallback [deltaMsg 10, deltaMsg 20, deltaMsg 30]
    (by decide)).trans (by decide)

/-- C5: for every engine other than Codex, extraction returns the normalized
usage of the most recent message whose candidate payload normalizes to a
positive field, signals no data when there is none, and a message's
candidate payload is its direct `usage` field, falling back to the nested
`message.usage` only when the direct field is absent. -/
theorem generic_usage_most_recent (engine : Option String)
    (hcx : engine ≠ some "codex") :
    (∀ (pre post : List Msg) (m : Msg) (n : NormalizedUsage),
        genericHit engine m = some n →
        (∀ x ∈ post, genericHit engine x = none) →
        extractCurrentUsage (pre ++ m :: post) engine = some n) ∧
    (∀ messages : List Msg,
        (∀ x ∈ messages, genericHit engine x = none) →
        extractCurrentUsage messages engine = none) ∧
    (∀ (m : Msg) (u : RawUsage), m.usage = some u →
        getUsageCandidate m engine = some u) ∧
    (∀ m : Msg, m.usage = none → getUsageCandidate m engine = m.message_usage) := by
  refine ⟨?_, ?_, ?_, ?_⟩
  · intro pre post m n hm hpost
    unfold extractCurrentUsage
    rw [extractCurrentUsageAux_eq, List.reverse_append, List.reverse_cons,
      List.append_assoc, List.singleton_append,
      firstHit_append_of_none _ _ _ fun x hx => hpost x (List.mem_reverse.mp hx)]
    simp [firstHit, hm]
  · intro messages hall
    unfold extractCurrentUsage
    rw [extractCurrentUsageAux_eq]
    exact firstHit_eq_none _ _ fun x hx => hall x (List.mem_reverse.mp hx)
  · intro m u hu
    unfold getUsageCandidate
    rw [hu]
    rfl
  · intro m hu
    unfold getUsageCandidate
    rw [hu]
    cases hm : m.message_usage <;> simp [Option.orElse, hcx]

/-- Witness for C5: with the Claude engine, a usage-bearing message between
two empty messages is found by the backward scan. -/
theorem generic_usage_most_recent_witness :
    extractCurrentUsage [Msg.mk none none none, deltaMsg 5, Msg.mk none none none]
      (some "claude") = some ⟨5, 0, 0, 0⟩ :=
  (generic_usage_most_recent (some "claude") (by decide)).1
    [Msg.mk none none none] [Msg.mk none none none] (deltaMsg 5) ⟨5, 0, 0, 0⟩
    (by decide) (by decide)

/-- C6: for the Codex engine, the most recent positive runtime-reported
context window in the message metadata overrides the static lookup, and the
static lookup is used when no message carries one. -/
theorem codex_runtime_window_override (gcws : Option String → Option String → Int)
    (gul : ℚ → ContextUsageLevel) (model : Option String) :
    (∀ (pre post : List Msg) (m : Msg) (w : Int),
        ctxCandidate m = some w →
        (∀ x ∈ post, ctxCandidate x = none) →
        (useContextWindowUsage gcws gul (pre ++ m :: post) model
          (some "codex")).contextWindowSize = w) ∧
    (∀ messages : List Msg,
        (∀ x ∈ messages, ctxCandidate x = none) →
        (useContextWindowUsage gcws gul messages model
          (some "codex")).contextWindowSize = gcws model (some "codex")) := by
  constructor
  · intro pre post m w hm hpost
    rw [result_contextWindowSize_eq]
    unfold resolveContextWindow
    rw [if_pos rfl, findCtxOverride_eq, List.reverse_append, List.reverse_cons,
      List.append_assoc, List.singleton_append,
      firstHit_append_of_none _ _ _ fun x hx => hpost x (List.mem_reverse.mp hx)]
    simp [firstHit, hm]
  · intro messages hall
    rw [result_contextWindowSize_eq]
    unfold resolveContextWindow
    rw [if_pos rfl, findCtxOverride_eq,
      firstHit_eq_none _ _ fun x hx => hall x (List.mem_reverse.mp hx)]

/-- Witness for C6: a runtime-reported window of 32000 overrides a static
lookup of 1000. -/
theorem codex_runtime_window_override_witness :
    (useContextWindowUsage (fun _ _ => 1000) (fun _ => ContextUsageLevel.low)
      [ctxMsg 32000] none (some "codex")).contextWindowSize = 32000 :=
  (codex_runtime_window_override (fun _ _ => 1000) (fun _ => ContextUsageLevel.low)
    none).1 [] [] (ctxMsg 32000) 32000 (by decide) (by decide)

/-- C3: whenever extraction succeeds, the aggregator's `currentTokens` is
the sum of the input, cache-creation and cache-read tokens of the extracted
usage — the output tokens (still present in the breakdown) are excluded. -/
theorem currentTokens_excludes_output (gcws : Option String → Option String → Int)
    (gul : ℚ → ContextUsageLevel) (messages : List Msg) (model engine : Option String)
    (u : NormalizedUsage) (hu : dispatchExtract messages engine = some u) :
    (useContextWindowUsage gcws gul messages model engine).currentTokens =
      u.inputTokens + u.cacheCreationTokens + u.cacheReadTokens ∧
    (useContextWindowUsage gcws gul messages model engine).breakdown = u := by
  rw [useContextWindowUsage_eq_of_extract gcws gul messages model engine u hu]
  exact ⟨rfl, rfl⟩

/-- Witness for C3: a message with usage
`{input 100, output 500, cacheCreation 20, cacheRead 10}` yields
`currentTokens = 130`, with the 500 output tokens excluded. -/
theorem currentTokens_excludes_output_witness :
    (useContextWindowUsage (fun _ _ => 200000) (fun _ => ContextUsageLevel.low)
      [fullUsageMsg 100 500 20 10] none (some "claude")).currentTokens = 130 ∧
    (useContextWindowUsage (fun _ _ => 200000) (fun _ => ContextUsageLevel.low)
      [fullUsageMsg 100 500 20 10] none (some "claude")).breakdown =
      ⟨100, 500, 20, 10⟩ :=
  currentTokens_excludes_output (fun _ _ => 200000) (fun _ => ContextUsageLevel.low)
    [fullUsageMsg 100 500 20 10] none (some "claude") ⟨100, 500, 20, 10⟩ (by decide)

/-- C4: the aggregator's percentage equals
`currentTokens / contextWindowSize * 100` clamped at 100 when the window is
positive, equals 0 when the window is not positive, and always lies in
[0, 100]. -/
theorem percentage_clamped (gcws : Option String → Option String → Int)
    (gul : ℚ → ContextUsageLevel) (messages : List Msg) (model engine : Option String) :
    (0 < (useContextWindowUsage gcws gul messages model engine).contextWindowSize →
      (useContextWindowUsage gcws gul messages model engine).percentage =
        min (((useContextWindowUsage gcws gul messages model engine).currentTokens : ℚ) /
          ((useContextWindowUsage gcws gul messages model engine).contextWindowSize : ℚ) *
            100) 100) ∧
    ((useContextWindowUsage gcws gul messages model engine).contextWindowSize ≤ 0 →
      (useContextWindowUsage gcws gul messages model engine).percentage = 0) ∧
    0 ≤ (useContextWindowUsage gcws gul messages model engine).percentage ∧
    (useContextWindowUsage gcws gul messages model engine).percentage ≤ 100 := by
  have hp := result_percentage_eq gcws gul messages model engine
  refine ⟨?_, ?_, ?_, ?_⟩
  · intro h
    rw [hp]
    unfold computePercentage
    rw [if_pos h]
  · intro h
    rw [hp]
    unfold computePercentage
    rw [if_neg (not_lt.mpr h)]
  · rw [hp]
    exact computePercentage_nonneg _ _
  · rw [hp]
    exact computePercentage_le_100 _ _

/-- Witness for C4: 1500 current tokens against a window of 1000 clamp to a
percentage of exactly 100. -/
theorem percentage_clamped_witness :
    0 < (useContextWindowUsage (fun _ _ => 1000) (fun _ => ContextUsageLevel.low)
        [deltaMsg 1500] none (some "claude")).contextWindowSize ∧
    (useContextWindowUsage (fun _ _ => 1000) (fun _ => ContextUsageLevel.low)
        [deltaMsg 1500] none (some "claude")).percentage = 100 := by
  have h := (percentage_clamped (fun _ _ => 1000) (fun _ => ContextUsageLevel.low)
    [deltaMsg 1500] none (some "claude")).1
  have hcws : (useContextWindowUsage (fun _ _ => 1000) (fun _ => ContextUsageLevel.low)
      [deltaMsg 1500] none (some "claude")).contextWindowSize = 1000 := by decide
  have hct : (useContextWindowUsage (fun _ _ => 1000) (fun _ => ContextUsageLevel.low)
      [deltaMsg 1500] none (some "claude")).currentTokens = 1500 := by decide
  refine ⟨by rw [hcws]; norm_num, ?_⟩
  rw [h (by rw [hcws]; norm_num), hct, hcws]
  rw [show ((1500 : Nat) : ℚ) / ((1000 : Int) : ℚ) * 100 = 150 by norm_num]
  rw [min_eq_right (by norm_num)]

/-- C7: an empty message list — and more generally any list on which
extraction signals no data — produces a zeroed result with `hasData = false`
whose `contextWindowSize` is still the resolved window for the given model
and engine; the aggregator is a total function, so no exception can arise. -/
theorem empty_or_nodata_zeroed (gcws : Option String → Option String → Int)
    (gul : ℚ → ContextUsageLevel) (model engine : Option String) :
    ((useContextWindowUsage gcws gul [] model engine).hasData = false ∧
     (useContextWindowUsage gcws gul [] model engine).currentTokens = 0 ∧
     (useContextWindowUsage gcws gul [] model engine).percentage = 0 ∧
     (useContextWindowUsage gcws gul [] model engine).breakdown = ⟨0, 0, 0, 0⟩ ∧
     (useContextWindowUsage gcws gul [] model engine).contextWindowSize =
       gcws model engine) ∧
    (∀ messages : List Msg, dispatchExtract messages engine = none →
      (useContextWindowUsage gcws gul messages model engine).hasData = false ∧
      (useContextWindowUsage gcws gul messages model engine).currentTokens = 0 ∧
      (useContextWindowUsage gcws gul messages model engine).percentage = 0 ∧
      (useContextWindowUsage gcws gul messages model engine).breakdown = ⟨0, 0, 0, 0⟩ ∧
      (useContextWindowUsage gcws gul messages model engine).contextWindowSize =
        resolveContextWindow gcws messages model engine) := by
  constructor
  · rw [useContextWindowUsage_eq_default gcws gul [] model engine (dispatchExtract_nil engine)]
    exact ⟨rfl, rfl, rfl, rfl, resolveContextWindow_nil gcws model engine⟩
  · intro messages hx
    rw [useContextWindowUsage_eq_default gcws gul messages model engine hx]
    exact ⟨rfl, rfl, rfl, rfl, rfl⟩

/-- Witness for C7: a single message without any usage data gives the zeroed
no-data result while the window stays resolved. -/
theorem empty_or_nodata_zeroed_witness :
    (useContextWindowUsage (fun _ _ => 1000) (fun _ => ContextUsageLevel.low)
      [Msg.mk none none none] none (some "claude")).hasData = false ∧
    (useContextWindowUsage (fun _ _ => 1000) (fun _ => ContextUsageLevel.low)
      [Msg.mk none none none] none (some "claude")).currentTokens = 0 ∧
    (useContextWindowUsage (fun _ _ => 1000) (fun _ => ContextUsageLevel.low)
      [Msg.mk none none none] none (some "claude")).percentage = 0 ∧
    (useContextWindowUsage (fun _ _ => 1000) (fun _ => ContextUsageLevel.low)
      [Msg.mk none none none] none (some "claude")).breakdown = ⟨0, 0, 0, 0⟩ ∧
    (useContextWindowUsage (fun _ _ => 1000) (fun _ => ContextUsageLevel.low)
      [Msg.mk none none none] none (some "claude")).contextWindowSize =
      resolveContextWindow (fun _ _ => 1000) [Msg.mk none none none] none
        (some "claude") :=
  (empty_or_nodata_zeroed (fun _ _ => 1000) (fun _ => ContextUsageLevel.low)
    none (some "claude")).2 [Msg.mk none none none] (by decide)

/-- C10: for a non-Codex engine, a most-recent message whose normalized
usage has only positive output tokens still counts as data: the aggregator
reports `hasData = true` with `currentTokens = 0` and `percentage = 0`. -/
theorem output_only_message_counts (gcws : Option String → Option String → Int)
    (gul : ℚ → ContextUsageLevel) (ms : List Msg) (model engine : Option String)
    (hcx : engine ≠ some "codex") (m : Msg) (u : RawUsage) (k : Nat)
    (hu : getUsageCandidate m engine = some u)
    (hn : normalizeUsageForIndicator u = ⟨0, k, 0, 0⟩) (hk : 0 < k) :
    (useContextWindowUsage gcws gul (ms ++ [m]) model engine).hasData = true ∧
    (useContextWindowUsage gcws gul (ms ++ [m]) model engine).currentTokens = 0 ∧
    (useContextWindowUsage gcws gul (ms ++ [m]) model engine).percentage = 0 := by
  have hext : dispatchExtract (ms ++ [m]) engine = some ⟨0, k, 0, 0⟩ := by
    unfold dispatchExtract
    rw [if_neg hcx]
    unfold extractCurrentUsage
    rw [extractCurrentUsageAux_eq, List.reverse_append]
    have hhit : genericHit engine m = some ⟨0, k, 0, 0⟩ := by
      unfold genericHit
      rw [hu]
      simp only [hn, hasAnyTokens]
      simp [hk]
    simp [firstHit, hhit]
  rw [useContextWindowUsage_eq_of_extract gcws gul (ms ++ [m]) model engine
    ⟨0, k, 0, 0⟩ hext]
  exact ⟨rfl, rfl, computePercentage_zero _⟩

/-- Witness for C10: a Claude message reporting only 42 output tokens makes
the aggregator report data with zero current tokens and zero percentage. -/
theorem output_only_message_counts_witness :
    (useContextWindowUsage (fun _ _ => 1000) (fun _ => ContextUsageLevel.low)
      [outputOnlyMsg 42] none (some "claude")).hasData = true ∧
    (useContextWindowUsage (fun _ _ => 1000) (fun _ => ContextUsageLevel.low)
      [outputOnlyMsg 42] none (some "claude")).currentTokens = 0 ∧
    (useContextWindowUsage (fun _ _ => 1000) (fun _ => ContextUsageLevel.low)
      [outputOnlyMsg 42] none (some "claude")).percentage = 0 :=
  output_only_message_counts (fun _ _ => 1000) (fun _ => ContextUsageLevel.low)
    [] none (some "claude") (by decide) (outputOnlyMsg 42)
    { output_tokens := some 42 } 42 (by decide) (by decide) (by decide)

/-- C8 counterexample: on an empty message list the hook returns the literal
`"0%"` (useContextWindowUsage.ts:229) although the percentage 0 formatted to
one decimal place is `"0.0%"` — so `formattedPercentage` is not always the
percentage formatted to one decimal place. -/
theorem formattedPercentage_claim_counterexample :
    ¬ ((useContextWindowUsage (fun _ _ => 100) (fun _ => ContextUsageLevel.low)
          [] none none).formattedPercentage =
        toFixed1 (useContextWindowUsage (fun _ _ => 100)
          (fun _ => ContextUsageLevel.low) [] none none).percentage ++ "%") := by
  intro h
  have h1 : (useContextWindowUsage (fun _ _ => 100) (fun _ => ContextUsageLevel.low)
      [] none none).formattedPercentage = "0%" := rfl
  have h2 : (useContextWindowUsage (fun _ _ => 100) (fun _ => ContextUsageLevel.low)
      [] none none).percentage = 0 := rfl
  rw [h1, h2, toFixed1_zero] at h
  exact absurd h (by decide)

/-- C8 amended: whenever the result carries data, `formattedPercentage` is
the percentage formatted to one decimal place with a trailing `%`; the
zeroed no-data result instead carries the literal `"0%"`. -/
theorem formattedPercentage_amended (gcws : Option String → Option String → Int)
    (gul : ℚ → ContextUsageLevel) (messages : List Msg) (model engine : Option String) :
    ((useContextWindowUsage gcws gul messages model engine).hasData = true →
      (useContextWindowUsage gcws gul messages model engine).formattedPercentage =
        toFixed1 (useContextWindowUsage gcws gul messages model engine).percentage
          ++ "%") ∧
    ((useContextWindowUsage gcws gul messages model engine).hasData = false →
      (useContextWindowUsage gcws gul messages model engine).formattedPercentage =
        "0%") := by
  cases hx : dispatchExtract messages engine with
  | none =>
    rw [useContextWindowUsage_eq_default gcws gul messages model engine hx]
    exact ⟨fun h => Bool.noConfusion h, fun _ => rfl⟩
  | some u =>
    rw [useContextWindowUsage_eq_of_extract gcws gul messages model engine u hx]
    exact ⟨fun _ => rfl, fun h => Bool.noConfusion h⟩

/-- Witness for the amended C8: a data-bearing session formats its
percentage to one decimal place. -/
theorem formattedPercentage_amended_witness :
    (useContextWindowUsage (fun _ _ => 1000) (fun _ => ContextUsageLevel.low)
      [deltaMsg 500] none (some "claude")).hasData = true ∧
    (useContextWindowUsage (fun _ _ => 1000) (fun _ => ContextUsageLevel.low)
      [deltaMsg 500] none (some "claude")).formattedPercentage =
      toFixed1 (useContextWindowUsage (fun _ _ => 1000)
        (fun _ => ContextUsageLevel.low) [deltaMsg 500] none
        (some "claude")).percentage ++ "%" :=
  ⟨by decide, (formattedPercentage_amended (fun _ _ => 1000)
    (fun _ => ContextUsageLevel.low) [deltaMsg 500] none (some "claude")).1
    (by decide)⟩

/-- C9: `formatK` renders values of at least a million as the value over
1,000,000 to one decimal followed by `M`, values of at least a thousand as
the value over 1,000 to one decimal followed by `K`, and smaller values as
the plain integer; in particular `formatK 950 = "950"`,
`formatK 1500 = "1.5K"` and `formatK 2500000 = "2.5M"`. -/
theorem formatK_abbreviates (n : Nat) :
    (1000000 ≤ n → formatK (n : Int) = toFixed1 ((n : ℚ) / 1000000) ++ "M") ∧
    (1000 ≤ n → n < 1000000 → formatK (n : Int) = toFixed1 ((n : ℚ) / 1000) ++ "K") ∧
    (n < 1000 → formatK (n : Int) = Nat.repr n) ∧
    formatK 950 = "950" ∧ formatK 1500 = "1.5K" ∧ formatK 2500000 = "2.5M" := by
  refine ⟨?_, ?_, ?_, ?_, ?_, ?_⟩
  · intro h
    unfold formatK
    rw [if_pos (by exact_mod_cast h)]
    simp only [Int.cast_natCast]
  · intro h1 h2
    unfold formatK
    rw [if_neg (by exact_mod_cast not_le.mpr h2), if_pos (by exact_mod_cast h1)]
    simp only [Int.cast_natCast]
  · intro h
    unfold formatK
    rw [if_neg (by exact_mod_cast not_le.mpr (lt_trans h (by norm_num))),
      if_neg (by exact_mod_cast not_le.mpr h)]
    rfl
  · decide
  · unfold formatK
    rw [if_neg (by norm_num), if_pos (by norm_num),
      toFixed1_eq_of_floor _ 15 (by rw [Int.floor_eq_iff] <;> norm_num)]
    decide
  · unfold formatK
    rw [if_pos (by norm_num),
      toFixed1_eq_of_floor _ 25 (by rw [Int.floor_eq_iff] <;> norm_num)]
    decide

/-- Witness for C9: the thousands branch applied at 1500. -/
theorem formatK_abbreviates_witness :
    (1000 : Nat) ≤ 1500 ∧ (1500 : Nat) < 1000000 ∧
    formatK ((1500 : Nat) : Int) = toFixed1 (((1500 : Nat) : ℚ) / 1000) ++ "K" :=
  ⟨by decide, by decide, (formatK_abbreviates 1500).2.1 (by decide) (by decide)⟩

end AnyCode
